import Mathlib

/-!
Verification of the research-paper-copilot RAG pipeline.

Shallow embedding of the core backend modules:
`backend/ingest.py` (sentence splitting and chunking),
`backend/embeddings.py` (chunk store: ids, metadata, search, delete, list),
`backend/retrieval.py` (context formatting and citation map),
`backend/rag_pipelines.py` (LLM response processing and error handling).

Python strings are modelled as Lean `String`s (character-for-character),
Python dict metadata as ordered association lists, and collaborator calls
that may raise as `Except String` values.
-/

/-- ASCII whitespace as recognised by Python's `str.strip` and `\s`
on the ASCII inputs this development uses. -/
def pyWs (c : Char) : Bool :=
  c = ' ' || c = '\t' || c = '\n' || c = '\r' || c = Char.ofNat 11 || c = Char.ofNat 12

/-- Python `str.strip()`: drop whitespace from both ends. -/
def pyStrip (s : String) : String :=
  String.mk (((s.toList.dropWhile pyWs).reverse.dropWhile pyWs).reverse)

/-- Python slice `s[-n:]`: for `n = 0` this is the whole string
(`s[0:]`), otherwise the last `min n (length s)` characters. -/
def pyLastSlice (n : Nat) (s : String) : String :=
  if n = 0 then s else String.mk (s.toList.drop (s.toList.length - n))

/-- A Python scalar value stored in a metadata dict: string or int. -/
inductive PVal where
  | s (v : String)
  | n (v : Int)
deriving Repr, DecidableEq

/-- Metadata dicts are ordered association lists keyed by strings. -/
def Meta : Type := List (String × PVal)

instance : DecidableEq Meta := inferInstanceAs (DecidableEq (List (String × PVal)))

instance : Repr Meta := inferInstanceAs (Repr (List (String × PVal)))

/-- Python f-string rendering of a `PVal`. -/
def pyShow (v : PVal) : String :=
  match v with
  | .s v => v
  | .n k => toString k

/-- Python f-string rendering of `dict.get(key)`: `None` renders as "None". -/
def pyShowOpt (o : Option PVal) : String :=
  match o with
  | none => "None"
  | some v => pyShow v

/-- Python f-string rendering of `dict.get(key, default)` with a string default. -/
def pyShowD (o : Option PVal) (d : String) : String :=
  match o with
  | none => d
  | some v => pyShow v

/-! ## `backend/ingest.py` — sentence splitting and chunking -/

/-- A sentence-terminator character for the regex class `[.!?]`. -/
def isTerm (c : Char) : Bool := c = '.' || c = '!' || c = '?'

/-- State machine for `re.split(r'(?<=[.!?])\s+', text)`: a sentence
boundary is a maximal whitespace run immediately preceded by `.`, `!`
or `?`.  `acc` is the current sentence reversed, `gap` is true while
consuming the whitespace run, `prevTerm` records whether the previous
character was a terminator. -/
def sentSplitAux : List Char → List Char → Bool → Bool → List (List Char)
  | [], acc, gap, _ => if gap then [[]] else [acc.reverse]
  | c :: rest, acc, gap, prevTerm =>
    if gap then
      if pyWs c then sentSplitAux rest [] true false
      else sentSplitAux rest [c] false (isTerm c)
    else
      if pyWs c && prevTerm then
        acc.reverse :: sentSplitAux rest [] true false
      else
        sentSplitAux rest (c :: acc) false (isTerm c)

/-- `re.split(r'(?<=[.!?])\s+', text)` from `smart_chunking`. -/
def sentSplit (s : String) : List String :=
  (sentSplitAux s.toList [] false false).map String.mk

/-- A chunk as built by `smart_chunking`: stripped content and the
length of the (unstripped) accumulation buffer at flush time. -/
structure Chunk where
  content : String
  length : Nat
deriving Repr, DecidableEq

/-- One iteration of the `for sentence in sentences` loop of
`smart_chunking`.  State is (chunks so far, current buffer). -/
def chunkStep (target_size overlap_size : Nat) (st : List Chunk × String)
    (sentence : String) : List Chunk × String :=
  let chunks := st.1
  let current := st.2
  let potential := if current = "" then sentence else current ++ " " ++ sentence
  if potential.length ≤ target_size then
    (chunks, potential)
  else
    let chunks' := if current = "" then chunks
      else chunks ++ [⟨pyStrip current, current.length⟩]
    let overlap := if overlap_size ≤ current.length then pyLastSlice overlap_size current
      else current
    let current' := if overlap = "" then sentence else overlap ++ " " ++ sentence
    (chunks', current')

/-- `smart_chunking(text, target_size, overlap_size)` from
`backend/ingest.py`. -/
def smart_chunking (text : String) (target_size : Nat := 150)
    (overlap_size : Nat := 30) : List Chunk :=
  let st := (sentSplit (pyStrip text)).foldl (chunkStep target_size overlap_size) ([], "")
  if pyStrip st.2 = "" then st.1 else st.1 ++ [⟨pyStrip st.2, st.2.length⟩]

/-- A page handed to the chunker: `{'page_number': n, 'text': t}`. -/
structure Page where
  page_number : Nat
  text : String
deriving Repr, DecidableEq

/-- A chunk after `chunk_pages_with_metadata` added page and document info. -/
structure PageChunk where
  content : String
  length : Nat
  page_number : Nat
  doc_id : String
deriving Repr, DecidableEq

/-- `chunk_pages_with_metadata(pages_data, doc_metadata, ...)` from
`backend/ingest.py`; `doc_metadata['filename']` is passed as `filename`. -/
def chunk_pages_with_metadata (pages_data : List Page) (filename : String)
    (target_size : Nat := 150) (overlap_size : Nat := 30) : List PageChunk :=
  (pages_data.map (fun page =>
    (smart_chunking page.text target_size overlap_size).map (fun ch =>
      ⟨ch.content, ch.length, page.page_number, filename⟩))).flatten

/-! ## `backend/embeddings.py` — the chunk store -/

/-- Record ids assigned by `store_chunks`: `f"chunk_{i}"` for the `i`-th
chunk of the call (`enumerate` starting at 0).  Note the document id does
not appear. -/
def store_chunks_ids_aux (i : Nat) : List Chunk → List String
  | [] => []
  | _ :: rest => ("chunk_" ++ toString i) :: store_chunks_ids_aux (i + 1) rest

/-- The full id list written by one `store_chunks` call. -/
def store_chunks_ids (chunks : List Chunk) : List String :=
  store_chunks_ids_aux 0 chunks

/-- The metadata dict `store_chunks` writes for the `i`-th chunk. -/
def store_chunk_meta (filename : String) (i : Nat) (ch : Chunk) : Meta :=
  [("filename", PVal.s filename), ("chunk_id", PVal.n i),
   ("length", PVal.n ch.length), ("topic", PVal.s "ai research papers")]

/-- Metadata dicts written by one `store_chunks` call, in order. -/
def store_chunks_metadata_aux (filename : String) (i : Nat) : List Chunk → List Meta
  | [] => []
  | ch :: rest => store_chunk_meta filename i ch :: store_chunks_metadata_aux filename (i + 1) rest

/-- All per-chunk metadata records of a `store_chunks` call. -/
def store_chunks_metadata (filename : String) (chunks : List Chunk) : List Meta :=
  store_chunks_metadata_aux filename 0 chunks

/-- `_generate_chunk_id(doc_id, chunk_index)` from `backend/embeddings.py`
(defined there but never called by `store_chunks`). -/
def generate_chunk_id (doc_id : String) (chunk_index : Nat) : String :=
  doc_id ++ "_chunk_" ++ toString chunk_index

/-- One retrieval result: `{'content': doc, 'metadata': metadata,
'similarity': similarity}` as built by `search_similar`. -/
structure SearchResult where
  content : String
  metadata : Meta
  similarity : ℚ
deriving Repr, DecidableEq

/-- A row returned by the vector-store collaborator's `query`: document
text, metadata and distance. -/
def CollabRow : Type := String × Meta × ℚ

instance : DecidableEq CollabRow := inferInstanceAs (DecidableEq (String × Meta × ℚ))

/-- `similarity = 1 - distance` conversion applied to one collaborator row. -/
def convertRow (row : CollabRow) : SearchResult :=
  ⟨row.1, row.2.1, 1 - row.2.2⟩

/-- The descending-similarity order used by
`sorted(..., key=lambda x: x['similarity'], reverse=True)`. -/
def descBySim (a b : SearchResult) : Prop := b.similarity ≤ a.similarity

instance : DecidableRel descBySim :=
  fun a b => inferInstanceAs (Decidable (b.similarity ≤ a.similarity))

instance : IsTotal SearchResult descBySim := ⟨fun a b => le_total b.similarity a.similarity⟩

instance : IsTrans SearchResult descBySim := ⟨fun _ _ _ h1 h2 => le_trans h2 h1⟩

/-- The pure core of `search_similar`: convert each collaborator row with
`similarity = 1 - distance`, keep rows with `similarity >= min_similarity`
in order, then stably sort by descending similarity. -/
def search_similar (rows : List CollabRow) (min_similarity : ℚ) : List SearchResult :=
  List.insertionSort descBySim
    (((rows.map convertRow).filter (fun r => min_similarity ≤ r.similarity)))

/-- `search_similar` including the collaborator `query` call, which is
not wrapped in try/except: a collaborator failure propagates. -/
def search_similar_io (rowsOrErr : Except String (List CollabRow))
    (min_similarity : ℚ) : Except String (List SearchResult) :=
  match rowsOrErr with
  | .error e => .error e
  | .ok rows => .ok (search_similar rows min_similarity)

/-- `delete_document`: the collaborator `delete` call is wrapped in
try/except and the function ends in a bare `return`, so it returns
Python `None` (modelled `none`) on success and on failure alike. -/
def delete_document (outcome : Except String Unit) : Option Bool :=
  match outcome with
  | .ok _ => none
  | .error _ => none

/-- `list_documents`: returns the collaborator's collection list, or `[]`
when the collaborator raises. -/
def list_documents (outcome : Except String (List String)) : List String :=
  match outcome with
  | .ok l => l
  | .error _ => []

/-- `store_chunks`' collaborator `add` call: not wrapped in try/except,
so the outcome passes straight through to the caller. -/
def store_chunks_add (outcome : Except String Unit) : Except String Unit :=
  outcome

/-! ## `backend/retrieval.py` — context formatting and citation map -/

/-- `"Source {i}"` labels shared by both formatting functions. -/
def sourceLabel (i : Nat) : String := "Source " ++ toString i

/-- Lines built by `format_context_with_citations`'s
`enumerate(search_results, start=1)` loop, starting from counter `i`. -/
def format_lines (i : Nat) : List SearchResult → List String
  | [] => []
  | r :: rest =>
    (sourceLabel i ++ " (Page " ++ pyShowOpt (r.metadata.lookup "page_number")
      ++ "): " ++ r.content) :: format_lines (i + 1) rest

/-- `format_context_with_citations(search_results)`: the lines joined by
newlines. -/
def format_context_with_citations (search_results : List SearchResult) : String :=
  String.intercalate "\n" (format_lines 1 search_results)

/-- Entries inserted by `extract_citation_info`'s
`enumerate(search_results, start=1)` loop, starting from counter `i`;
the dict is modelled as its insertion-ordered entry list. -/
def extract_citation_info_aux (i : Nat) : List SearchResult → List (String × String)
  | [] => []
  | r :: rest =>
    (sourceLabel i,
      pyShowD (r.metadata.lookup "filename") "Unknown" ++ ", Page "
        ++ pyShowD (r.metadata.lookup "page_number") "Unknown")
      :: extract_citation_info_aux (i + 1) rest

/-- `extract_citation_info(search_results)` from `backend/retrieval.py`. -/
def extract_citation_info (search_results : List SearchResult) : List (String × String) :=
  extract_citation_info_aux 1 search_results

/-! ## `backend/rag_pipelines.py` — response processing and error handling -/

/-- The literal characters `"(Source "` opening the citation pattern
`r'\(Source \d+\)'`. -/
def citPat : List Char := ['(', 'S', 'o', 'u', 'r', 'c', 'e', ' ']

/-- Match a literal character list at the front of the input, returning
the remainder on success. -/
def dropLit : List Char → List Char → Option (List Char)
  | [], l => some l
  | _ :: _, [] => none
  | p :: ps, c :: cs => if c = p then dropLit ps cs else none

/-- Try to match `r'\(Source \d+\)'` at the current position: the literal
opening, then a nonempty maximal digit run, then `)`.  Returns the matched
token and the remaining input. -/
def matchCit (l : List Char) : Option (List Char × List Char) :=
  match dropLit citPat l with
  | none => none
  | some r1 =>
    match r1.dropWhile Char.isDigit with
    | [] => none
    | c :: r3 =>
      if c = ')' then
        if (r1.takeWhile Char.isDigit).isEmpty then none
        else some (citPat ++ r1.takeWhile Char.isDigit ++ [')'], r3)
      else none

/-- `re.findall(r'\(Source \d+\)', raw_response)`: all matches left to
right.  Because no `(` occurs inside a matched token, advancing one
character after a match visits exactly the non-overlapping occurrences. -/
def findCitations : List Char → List String
  | [] => []
  | c :: rest =>
    match matchCit (c :: rest) with
    | some (tok, _) => String.mk tok :: findCitations rest
    | none => findCitations rest

/-- The retrieval output dict handed to `_process_llm_response`. -/
structure ContextData where
  query : String
  context_chunks : List SearchResult
  formatted_context : String
  citation_map : List (String × String)
deriving Repr, DecidableEq

/-- The dict returned by `_process_llm_response` /
`answer_question_with_citations`. -/
structure AnswerResult where
  answer : String
  has_citations : Bool
  citations_used : List String
  citation_map : List (String × String)
  query : String
  sources_count : Nat
  confidence : String
deriving Repr, DecidableEq

/-- `RAGPipeline._process_llm_response(raw_response, context_data)`. -/
def process_llm_response (raw_response : String) (context_data : ContextData) :
    AnswerResult :=
  let citations_found := findCitations raw_response.toList
  let has_citations := !citations_found.isEmpty
  { answer := pyStrip raw_response
    has_citations := has_citations
    citations_used := citations_found
    citation_map := context_data.citation_map
    query := context_data.query
    sources_count := context_data.context_chunks.length
    confidence := if has_citations then "high" else "low" }

/-- `RAGPipeline._call_llm(prompt)`: the OpenAI call is wrapped in
try/except; an exception yields the literal string
`"Error generating response"`, success yields the stripped content. -/
def call_llm (response : Except String String) : String :=
  match response with
  | .ok content => pyStrip content
  | .error _ => "Error generating response"

/-- `RAGPipeline.generate_answer_with_citations` from the point where the
LLM collaborator responds: `_call_llm` then `_process_llm_response`. -/
def generate_answer_with_citations (response : Except String String)
    (context_data : ContextData) : AnswerResult :=
  process_llm_response (call_llm response) context_data

/-- `answer_question_with_citations(query, mode)`: the whole pipeline call
is wrapped in try/except; an exception escaping the pipeline (e.g. missing
API key or retrieval failure) becomes the error-confidence dict. -/
def answer_question_with_citations (query : String)
    (outcome : Except String AnswerResult) : AnswerResult :=
  match outcome with
  | .ok result => result
  | .error e =>
    { answer := "Error generating answer: " ++ e
      has_citations := false
      citations_used := []
      citation_map := []
      query := query
      sources_count := 0
      confidence := "error" }

/-! ## Shared concrete inputs -/

/-- A retrieval result whose metadata dict is empty. -/
def rNoMeta : SearchResult := ⟨"c", [], 1⟩

/-- An empty retrieval context. -/
def ctx0 : ContextData := ⟨"q", [], "", []⟩

/-! ## Claim C1 -/

/-- C1: the claim says every persisted record id is
`"{document_id}_chunk_{sequence_index}"`.  The code's `store_chunks`
instead assigns `f"chunk_{i}"`, ignoring the document id entirely; the
helper `_generate_chunk_id` that would produce the claimed format is never
called.  This theorem evaluates both at a concrete two-chunk document. -/
theorem C1_record_ids_ignore_document_id :
    store_chunks_ids [⟨"alpha", 5⟩, ⟨"beta", 4⟩] = ["chunk_0", "chunk_1"] ∧
    generate_chunk_id "doc_a" 0 = "doc_a_chunk_0" ∧
    generate_chunk_id "doc_a" 1 = "doc_a_chunk_1" ∧
    ("chunk_0" : String) ≠ "doc_a_chunk_0" ∧
    ("chunk_1" : String) ≠ "doc_a_chunk_1" :=
  ⟨rfl, rfl, rfl, by decide, by decide⟩

/-! ## Claim C5 -/

/-- C5: the claim says `chunk.length == len(chunk.content)` for every
produced chunk.  `smart_chunking` stores `length = len(current_chunk)`
but `content = current_chunk.strip()`; when the overlap seeded from a
previous chunk starts with a space they differ.  At page
`(1, "ab cd. x. uvwxyz.")` with `target_size=10, overlap_size=3` the
second chunk has `length = 11` while its content has 10 characters
(the `page_number` of both chunks does equal the source page). -/
theorem C5_length_field_differs_from_content_length :
    chunk_pages_with_metadata [⟨1, "ab cd. x. uvwxyz."⟩] "f.pdf" 10 3 =
      [⟨"ab cd. x.", 9, 1, "f.pdf"⟩, ⟨"x. uvwxyz.", 11, 1, "f.pdf"⟩] ∧
    ("x. uvwxyz." : String).length = 10 ∧
    (11 : Nat) ≠ 10 :=
  ⟨by decide, rfl, by decide⟩

/-! ## Claim C8 -/

/-- C8 counterexample: a language-model collaborator error is caught in
`_call_llm`, but the resulting answer flows through
`_process_llm_response` and ends with `confidence = "low"`, not the
claimed `"error"`. -/
theorem C8_counterexample_llm_failure_confidence_low :
    (generate_answer_with_citations (.error "boom") ctx0).confidence = "low" ∧
    ("low" : String) ≠ "error" :=
  ⟨rfl, by decide⟩

/-- C8 amended: a collaborator error during language-model invocation is
caught and converted into a well-formed result whose answer is the fixed
message "Error generating response" with `has_citations = false`, but
`confidence = "low"`; only exceptions escaping the pipeline itself (such
as construction or retrieval failures) are converted by
`answer_question_with_citations` into an `"error"`-confidence result. -/
theorem C8_llm_failure_yields_low_confidence_result (e : String)
    (ctx : ContextData) (q : String) :
    generate_answer_with_citations (.error e) ctx =
      { answer := "Error generating response"
        has_citations := false
        citations_used := []
        citation_map := ctx.citation_map
        query := ctx.query
        sources_count := ctx.context_chunks.length
        confidence := "low" } ∧
    answer_question_with_citations q (.error e) =
      ⟨"Error generating answer: " ++ e, false, [], [], q, 0, "error"⟩ :=
  ⟨rfl, rfl⟩

/-! ## Claim C9 -/

/-- C9 counterexample: `delete_document` returns Python `None` (never a
boolean), and a collaborator failure inside `search_similar` propagates
instead of being reported as an empty result. -/
theorem C9_counterexample_delete_not_bool_search_propagates :
    delete_document (.error "io") = none ∧
    search_similar_io (.error "io") (1/2) = .error "io" ∧
    (Except.error "io" : Except String (List SearchResult)) ≠ .ok [] :=
  ⟨rfl, rfl, by intro h; exact Except.noConfusion h⟩

/-- C9 amended: only `delete_document` and `list_documents` absorb
collaborator failures — `delete_document` always returns `None`
(no boolean) whatever the outcome, and `list_documents` returns `[]`
on failure — while `search_similar` and `store_chunks` have no handler,
so their collaborator failures propagate to the caller. -/
theorem C9_failure_semantics_per_operation (o : Except String Unit)
    (e : String) (ms : ℚ) (l : List String) (rows : List CollabRow) :
    delete_document o = none ∧
    list_documents (.error e) = [] ∧
    list_documents (.ok l) = l ∧
    search_similar_io (.error e) ms = .error e ∧
    search_similar_io (.ok rows) ms = .ok (search_similar rows ms) ∧
    store_chunks_add (.error e) = .error e := by
  refine ⟨?_, rfl, rfl, rfl, rfl, rfl⟩
  cases o <;> rfl

/-! ## Claim C6 -/

/-- C6 counterexample: for a result with no `page_number` in its
metadata, the formatted context line renders the page as `None`
(Python's rendering of a missing `dict.get`), not as `Unknown` as the
claim states. -/
theorem C6_counterexample_page_renders_none :
    format_context_with_citations [rNoMeta] = "Source 1 (Page None): c" ∧
    ("Source 1 (Page None): c" : String) ≠ "Source 1 (Page Unknown): c" :=
  ⟨rfl, by decide⟩

/-! ## Indexing lemmas for the retrieval assembler -/

/-- The `i`-th line built by the formatting loop started at counter `k`. -/
theorem format_lines_getElem? (results : List SearchResult) (k i : Nat)
    (r : SearchResult) (h : results[i]? = some r) :
    (format_lines k results)[i]? =
      some (sourceLabel (k + i) ++ " (Page "
        ++ pyShowOpt (r.metadata.lookup "page_number") ++ "): " ++ r.content) := by
  induction results generalizing k i with
  | nil => simp at h
  | cons a rest ih =>
    cases i with
    | zero =>
      simp only [List.getElem?_cons_zero, Option.some.injEq] at h
      subst h
      simp [format_lines]
    | succ n =>
      simp only [List.getElem?_cons_succ] at h
      have harith : k + 1 + n = k + (n + 1) := by omega
      simpa [format_lines, harith] using ih (k + 1) n h

/-- The `i`-th citation-map entry built by the extraction loop started at
counter `k`. -/
theorem extract_citation_info_aux_getElem? (results : List SearchResult)
    (k i : Nat) (r : SearchResult) (h : results[i]? = some r) :
    (extract_citation_info_aux k results)[i]? =
      some (sourceLabel (k + i),
        pyShowD (r.metadata.lookup "filename") "Unknown" ++ ", Page "
          ++ pyShowD (r.metadata.lookup "page_number") "Unknown") := by
  induction results generalizing k i with
  | nil => simp at h
  | cons a rest ih =>
    cases i with
    | zero =>
      simp only [List.getElem?_cons_zero, Option.some.injEq] at h
      subst h
      simp [extract_citation_info_aux]
    | succ n =>
      simp only [List.getElem?_cons_succ] at h
      have harith : k + 1 + n = k + (n + 1) := by omega
      simpa [extract_citation_info_aux, harith] using ih (k + 1) n h

/-- The key sequence of the citation map built from counter `k`. -/
theorem extract_citation_info_aux_keys (results : List SearchResult) (k : Nat) :
    (extract_citation_info_aux k results).map Prod.fst =
      (List.range results.length).map (fun j => sourceLabel (k + j)) := by
  induction results generalizing k with
  | nil => simp [extract_citation_info_aux]
  | cons a rest ih =>
    simp only [extract_citation_info_aux, List.map_cons, List.length_cons,
      List.range_succ_eq_map, List.map_map, ih (k + 1)]
    congr 1
    apply List.map_congr_left
    intro j _
    simp only [Function.comp_apply]
    congr 1
    omega

/-- Lengths agree with the input throughout the formatting loops. -/
theorem format_lines_length (results : List SearchResult) (k : Nat) :
    (format_lines k results).length = results.length := by
  induction results generalizing k with
  | nil => rfl
  | cons a rest ih => simp [format_lines, ih (k + 1)]

/-! ## Claim C2 -/

/-- C2: for any result sequence of length N, the citation-map keys are
exactly "Source 1" … "Source N" in order, and at each rank `i` the key
equals the `Source` label opening the corresponding `formatted_context`
line (both 1-based). -/
theorem C2_citation_keys_match_context_labels (results : List SearchResult) :
    ((extract_citation_info results).map Prod.fst =
      (List.range results.length).map (fun j => sourceLabel (j + 1))) ∧
    (∀ i : Nat, i < results.length → ∃ rest : String,
      (format_lines 1 results)[i]? = some (sourceLabel (i + 1) ++ rest) ∧
      ((extract_citation_info results)[i]?).map Prod.fst =
        some (sourceLabel (i + 1))) := by
  constructor
  · rw [extract_citation_info, extract_citation_info_aux_keys]
    apply List.map_congr_left
    intro j _
    congr 1
    omega
  · intro i hi
    have hr : results[i]? = some results[i] := List.getElem?_eq_getElem hi
    refine ⟨" (Page " ++ pyShowOpt ((results[i]).metadata.lookup "page_number")
      ++ "): " ++ (results[i]).content, ?_, ?_⟩
    · have := format_lines_getElem? results 1 i _ hr
      simpa [Nat.add_comm 1 i, String.append_assoc] using this
    · have := extract_citation_info_aux_getElem? results 1 i _ hr
      simp [extract_citation_info, this, Nat.add_comm 1 i]

/-- C2 witness at a one-element result list and rank 1. -/
theorem C2_witness :
    ∃ rest : String,
      (format_lines 1 [rNoMeta])[0]? = some (sourceLabel 1 ++ rest) ∧
      ((extract_citation_info [rNoMeta])[0]?).map Prod.fst =
        some (sourceLabel 1) :=
  (C2_citation_keys_match_context_labels [rNoMeta]).2 0 (by decide)

/-- C6 amended: for the result at rank `i` (1-based, input order) the
formatted context emits the line
`"Source {i} (Page {page_number}): {content}"` where an absent
`page_number` renders as `None`; the citation map maps `"Source {i}"`
to `"{filename or Unknown}, Page {page_number or Unknown}"`; empty
results yield an empty context string and an empty citation map. -/
theorem C6_assembler_line_and_entry_shape :
    (∀ (results : List SearchResult) (i : Nat) (r : SearchResult),
      results[i]? = some r →
      (format_lines 1 results)[i]? =
        some (sourceLabel (i + 1) ++ " (Page "
          ++ pyShowOpt (r.metadata.lookup "page_number") ++ "): " ++ r.content) ∧
      (extract_citation_info results)[i]? =
        some (sourceLabel (i + 1),
          pyShowD (r.metadata.lookup "filename") "Unknown" ++ ", Page "
            ++ pyShowD (r.metadata.lookup "page_number") "Unknown")) ∧
    format_context_with_citations [] = "" ∧
    extract_citation_info ([] : List SearchResult) = [] := by
  refine ⟨?_, rfl, rfl⟩
  intro results i r h
  constructor
  · simpa [Nat.add_comm 1 i] using format_lines_getElem? results 1 i r h
  · simpa [extract_citation_info, Nat.add_comm 1 i] using
      extract_citation_info_aux_getElem? results 1 i r h

/-- C6 witness: the amended description evaluated at a concrete
single-result sequence with empty metadata. -/
theorem C6_witness :
    (format_lines 1 [rNoMeta])[0]? =
      some (sourceLabel 1 ++ " (Page "
        ++ pyShowOpt ((rNoMeta).metadata.lookup "page_number") ++ "): "
        ++ rNoMeta.content) ∧
    (extract_citation_info [rNoMeta])[0]? =
      some (sourceLabel 1,
        pyShowD ((rNoMeta).metadata.lookup "filename") "Unknown" ++ ", Page "
          ++ pyShowD ((rNoMeta).metadata.lookup "page_number") "Unknown") :=
  C6_assembler_line_and_entry_shape.1 [rNoMeta] 0 rNoMeta rfl

/-! ## Claim C10 -/

/-- Destructuring an indexed metadata record of a `store_chunks` call. -/
theorem store_chunks_metadata_aux_getElem? (filename : String)
    (chunks : List Chunk) (k i : Nat) (m : Meta)
    (h : (store_chunks_metadata_aux filename k chunks)[i]? = some m) :
    ∃ ch : Chunk, chunks[i]? = some ch ∧ m = store_chunk_meta filename (k + i) ch := by
  induction chunks generalizing k i with
  | nil => simp [store_chunks_metadata_aux] at h
  | cons ch rest ih =>
    cases i with
    | zero =>
      simp only [store_chunks_metadata_aux, List.getElem?_cons_zero,
        Option.some.injEq] at h
      exact ⟨ch, by simp, by simpa using h.symm⟩
    | succ n =>
      simp only [store_chunks_metadata_aux, List.getElem?_cons_succ] at h
      obtain ⟨ch', h1, h2⟩ := ih (k + 1) n h
      exact ⟨ch', by simpa using h1, by simpa [Nat.add_assoc, Nat.add_comm 1 n] using h2⟩

/-- C10: every per-chunk metadata record written by `store_chunks` has
exactly the keys `filename`, `chunk_id`, `length`, `topic` and no
`page_number` key; consequently a result retrieved with such metadata
gets a citation entry ending in "Page Unknown" and a context line
rendering its page as `None` — page provenance is lost. -/
theorem C10_stored_metadata_loses_page (filename : String)
    (chunks : List Chunk) (i : Nat) (m : Meta)
    (h : (store_chunks_metadata filename chunks)[i]? = some m) :
    m.map Prod.fst = ["filename", "chunk_id", "length", "topic"] ∧
    m.lookup "page_number" = none ∧
    (∀ (content : String) (sim : ℚ),
      extract_citation_info [⟨content, m, sim⟩] =
        [("Source 1", filename ++ ", Page Unknown")] ∧
      format_lines 1 [⟨content, m, sim⟩] = ["Source 1 (Page None): " ++ content]) := by
  obtain ⟨ch, _, hm⟩ := store_chunks_metadata_aux_getElem? filename chunks 0 i m h
  subst hm
  refine ⟨rfl, rfl, ?_⟩
  intro content sim
  refine ⟨?_, rfl⟩
  have h2 : (", Page " ++ "Unknown" : String) = ", Page Unknown" := by decide
  calc extract_citation_info [⟨content, store_chunk_meta filename (0 + i) ch, sim⟩]
      = [("Source 1", filename ++ ", Page " ++ "Unknown")] := rfl
    _ = [("Source 1", filename ++ (", Page " ++ "Unknown"))] := by
        rw [String.append_assoc]
    _ = [("Source 1", filename ++ ", Page Unknown")] := by rw [h2]

/-- C10 witness: the stored metadata of a concrete one-chunk document. -/
theorem C10_witness :
    ((store_chunk_meta "f.pdf" 0 ⟨"x", 1⟩ : Meta).map Prod.fst =
      ["filename", "chunk_id", "length", "topic"]) ∧
    (store_chunk_meta "f.pdf" 0 ⟨"x", 1⟩ : Meta).lookup "page_number" = none ∧
    extract_citation_info [⟨"x", store_chunk_meta "f.pdf" 0 ⟨"x", 1⟩, 1⟩] =
      [("Source 1", "f.pdf" ++ ", Page Unknown")] := by
  have := C10_stored_metadata_loses_page "f.pdf" [⟨"x", 1⟩] 0
    (store_chunk_meta "f.pdf" 0 ⟨"x", 1⟩) rfl
  exact ⟨this.1, this.2.1, (this.2.2 "x" 1).1⟩

/-! ## Claim C4 -/

/-- Python `s[-n:]` of the empty string is empty. -/
theorem pyLastSlice_empty (n : Nat) : pyLastSlice n "" = "" := by
  unfold pyLastSlice
  split
  · rfl
  · show String.mk (List.drop (([] : List Char).length - n) ([] : List Char)) = ""
    rw [List.drop_nil]

/-- Feeding one sentence to the accumulation loop from the empty state
leaves the chunk list empty and the buffer equal to the sentence,
whatever the size parameters: an oversized sentence is not split. -/
theorem chunkStep_empty_state (t o : Nat) (s : String) :
    chunkStep t o ([], "") s = ([], s) := by
  have h0 : ("" : String).length = 0 := rfl
  by_cases ho : o = 0
  · subst ho
    simp [chunkStep, pyLastSlice]
  · simp [chunkStep, ho]

/-- C4: when the sentence splitter returns a single (stripped, nonempty)
sentence `s`, `smart_chunking` emits exactly one chunk whose content is
`s` in full — a sentence longer than `target_size` is never split
mid-sentence, for every `target_size` and `overlap_size`. -/
theorem C4_single_sentence_single_chunk (text s : String) (t o : Nat)
    (h1 : sentSplit (pyStrip text) = [s]) (h2 : pyStrip s = s) (h3 : s ≠ "") :
    smart_chunking text t o = [⟨s, s.length⟩] := by
  unfold smart_chunking
  rw [h1]
  simp only [List.foldl, chunkStep_empty_state]
  rw [h2, if_neg h3]
  simp

/-- The 500-character single "sentence" from the spec's concrete test. -/
def aText : String := String.mk (List.replicate 500 'A')

set_option maxRecDepth 4000 in
/-- C4 witness: chunking the page text `"A" * 500` with
`target_size = 150` yields exactly one chunk of length 500. -/
theorem C4_witness :
    smart_chunking aText 150 30 = [⟨aText, aText.length⟩] ∧ aText.length = 500 :=
  ⟨C4_single_sentence_single_chunk aText aText 150 30 (by decide) (by decide)
    (by decide), by decide⟩

/-! ## Claim C3 -/

/-- Inserting into a list never changes the sublist of elements holding
any fixed similarity value: elements skipped before the insertion point
are strictly greater. -/
theorem filter_sim_orderedInsert (c : ℚ) (a : SearchResult)
    (l : List SearchResult) :
    (List.orderedInsert descBySim a l).filter (fun r => r.similarity = c) =
      if a.similarity = c then a :: l.filter (fun r => r.similarity = c)
      else l.filter (fun r => r.similarity = c) := by
  induction l with
  | nil =>
    by_cases h : a.similarity = c <;>
      simp [List.orderedInsert, List.filter_cons, h]
  | cons b l ih =>
    by_cases hab : descBySim a b
    · by_cases hac : a.similarity = c <;> by_cases hbc : b.similarity = c <;>
        simp [List.orderedInsert, hab, List.filter_cons, hac, hbc]
    · have hlt : a.similarity < b.similarity := lt_of_not_le hab
      simp only [List.orderedInsert, if_neg hab, List.filter_cons, ih]
      by_cases hbc : b.similarity = c
      · have hac : ¬ a.similarity = c := by
          rw [hbc] at hlt
          exact ne_of_lt hlt
        simp [hac, hbc]
      · by_cases hac : a.similarity = c <;> simp [hac, hbc]

/-- The stable insertion sort by descending similarity preserves, for
each similarity value, the original relative order of the elements
carrying it. -/
theorem filter_sim_insertionSort (c : ℚ) (l : List SearchResult) :
    (List.insertionSort descBySim l).filter (fun r => r.similarity = c) =
      l.filter (fun r => r.similarity = c) := by
  induction l with
  | nil => rfl
  | cons a l ih =>
    simp only [List.insertionSort, filter_sim_orderedInsert, ih, List.filter_cons]
    by_cases hac : a.similarity = c <;> simp [hac]

/-- Filtering by a fixed similarity value at or above the threshold
commutes the threshold filter away. -/
theorem filter_sim_filter_min (c ms : ℚ) (hc : ms ≤ c)
    (l : List SearchResult) :
    (l.filter (fun r => ms ≤ r.similarity)).filter (fun r => r.similarity = c) =
      l.filter (fun r => r.similarity = c) := by
  induction l with
  | nil => rfl
  | cons a l ih =>
    by_cases h1 : a.similarity = c
    · have h2 : ms ≤ a.similarity := h1 ▸ hc
      simp [List.filter_cons, h1, h2, hc, ih]
    · by_cases h2 : ms ≤ a.similarity <;> simp [List.filter_cons, h1, h2, ih]

/-- C3: `search_similar` converts every collaborator distance `d` to
`similarity = 1 - d`, never returns a result below `min_similarity`,
returns the survivors sorted by descending similarity with ties kept in
the collaborator's original order (stable sort), and returns the empty
sequence when nothing clears the threshold. -/
theorem C3_search_filters_sorts_thresholds (rows : List CollabRow) (ms : ℚ) :
    (∀ r ∈ search_similar rows ms, ms ≤ r.similarity) ∧
    List.Sorted descBySim (search_similar rows ms) ∧
    (∀ c : ℚ, ms ≤ c →
      (search_similar rows ms).filter (fun r => r.similarity = c) =
        (rows.map convertRow).filter (fun r => r.similarity = c)) ∧
    ((∀ row ∈ rows, (convertRow row).similarity < ms) →
      search_similar rows ms = []) ∧
    (∀ r ∈ search_similar rows ms, ∃ row ∈ rows, r = convertRow row) := by
  refine ⟨?_, ?_, ?_, ?_, ?_⟩
  · intro r hr
    rw [search_similar, List.mem_insertionSort, List.mem_filter] at hr
    exact of_decide_eq_true hr.2
  · exact List.sorted_insertionSort descBySim _
  · intro c hc
    rw [search_similar, filter_sim_insertionSort, filter_sim_filter_min c ms hc]
  · intro hall
    rw [search_similar, List.filter_eq_nil_iff.mpr ?_]
    · rfl
    · intro x hx
      rw [List.mem_map] at hx
      obtain ⟨row, hrow, hconv⟩ := hx
      subst hconv
      simpa using not_le.mpr (hall row hrow)
  · intro r hr
    rw [search_similar, List.mem_insertionSort, List.mem_filter, List.mem_map] at hr
    obtain ⟨⟨row, hrow, hconv⟩, _⟩ := hr
    exact ⟨row, hrow, hconv.symm⟩

/-- Concrete collaborator rows: two of three clear a 0.5 threshold. -/
def rows0 : List CollabRow := [("a", [], 1/4), ("b", [], 3/4), ("c", [], 1/4)]

/-- Concrete collaborator rows none of which clears a 0.5 threshold. -/
def rows1 : List CollabRow := [("a", [], 3/4), ("b", [], 9/10)]

/-- C3 witness: the stability equation instantiated at the concrete
similarity value 3/4 over `rows0`, and the empty result over `rows1`,
a store where nothing clears the 0.5 threshold. -/
theorem C3_witness :
    ((search_similar rows0 (1/2)).filter (fun r => r.similarity = 3/4) =
      (rows0.map convertRow).filter (fun r => r.similarity = 3/4)) ∧
    search_similar rows1 (1/2) = [] :=
  ⟨(C3_search_filters_sorts_thresholds rows0 (1/2)).2.2.1 (3/4) (by norm_num),
   (C3_search_filters_sorts_thresholds rows1 (1/2)).2.2.2.1 (by
      intro row hrow
      fin_cases hrow <;> norm_num [convertRow])⟩

/-! ## Claim C7 -/

/-- A successful literal match means the input starts with the literal. -/
theorem dropLit_eq_some {pat l r : List Char} (h : dropLit pat l = some r) :
    l = pat ++ r := by
  induction pat generalizing l with
  | nil =>
    simp only [dropLit, Option.some.injEq] at h
    simp [h]
  | cons p ps ih =>
    cases l with
    | nil => simp [dropLit] at h
    | cons c cs =>
      by_cases hc : c = p
      · subst hc
        simp only [dropLit, if_pos rfl] at h
        simp [ih h]
      · simp [dropLit, hc] at h

/-- The literal matcher accepts its own literal prefixed to any input. -/
theorem dropLit_append (pat r : List Char) : dropLit pat (pat ++ r) = some r := by
  induction pat with
  | nil => rfl
  | cons p ps ih => simp [dropLit, ih]

/-- Splitting a digit run followed by a closing parenthesis. -/
theorem takeWhile_digits (ds post : List Char) (hds : ∀ c ∈ ds, c.isDigit) :
    (ds ++ ')' :: post).takeWhile Char.isDigit = ds ∧
    (ds ++ ')' :: post).dropWhile Char.isDigit = ')' :: post := by
  induction ds with
  | nil =>
    constructor <;> simp [List.takeWhile_cons, List.dropWhile_cons]
  | cons d ds ih =>
    have hd : d.isDigit := hds d (by simp)
    have hrest : ∀ c ∈ ds, c.isDigit := fun c hc => hds c (by simp [hc])
    obtain ⟨h1, h2⟩ := ih hrest
    constructor
    · simp [List.takeWhile_cons, hd, h1]
    · simp [List.dropWhile_cons, hd, h2]

/-- Anatomy of a successful citation-pattern match. -/
theorem matchCit_some {l tok rem : List Char} (h : matchCit l = some (tok, rem)) :
    ∃ ds, ds ≠ [] ∧ (∀ c ∈ ds, c.isDigit) ∧
      l = citPat ++ ds ++ ')' :: rem ∧ tok = citPat ++ ds ++ [')'] := by
  unfold matchCit at h
  split at h
  · simp at h
  · rename_i r1 hd
    have hl : l = citPat ++ r1 := dropLit_eq_some hd
    split at h
    · simp at h
    · rename_i c r3 hw
      split at h
      · rename_i hc
        subst hc
        split at h
        · simp at h
        · rename_i he
          simp only [Option.some.injEq, Prod.mk.injEq] at h
          obtain ⟨htok, hrem⟩ := h
          refine ⟨r1.takeWhile Char.isDigit, ?_,
            fun c hc => List.mem_takeWhile_imp hc, ?_, htok.symm⟩
          · intro hnil
            rw [hnil] at he
            exact he rfl
          · rw [hl]
            conv_lhs =>
              rw [← List.takeWhile_append_dropWhile Char.isDigit r1, hw, hrem]
            simp
      · simp at h

/-- The matcher succeeds on any well-formed citation token. -/
theorem matchCit_complete (ds post : List Char) (h1 : ds ≠ [])
    (h2 : ∀ c ∈ ds, c.isDigit) :
    matchCit (citPat ++ ds ++ ')' :: post) = some (citPat ++ ds ++ [')'], post) := by
  obtain ⟨ht, hw⟩ := takeWhile_digits ds post h2
  have he : ds.isEmpty = false := by
    cases ds with
    | nil => exact absurd rfl h1
    | cons a l => rfl
  unfold matchCit
  rw [show citPat ++ ds ++ ')' :: post = citPat ++ (ds ++ ')' :: post) by simp,
    dropLit_append]
  simp [ht, hw, he]

/-- The scanner returns a nonempty list when a match starts at the head. -/
theorem findCitations_ne_nil_head {l : List Char} (tok rem : List Char)
    (h : matchCit l = some (tok, rem)) : findCitations l ≠ [] := by
  cases l with
  | nil =>
    rw [show matchCit [] = none from rfl] at h
    exact absurd h (by simp)
  | cons c rest =>
    simp only [findCitations, h]
    simp

/-- The scanner returns a nonempty list whenever the citation pattern
occurs anywhere in the input. -/
theorem findCitations_ne_nil_of_occurrence (pre ds post : List Char)
    (h1 : ds ≠ []) (h2 : ∀ c ∈ ds, c.isDigit) :
    findCitations (pre ++ citPat ++ ds ++ ')' :: post) ≠ [] := by
  induction pre with
  | nil =>
    have hm := matchCit_complete ds post h1 h2
    exact findCitations_ne_nil_head _ _ (by simpa using hm)
  | cons c pre ih =>
    have hshape : (c :: pre) ++ citPat ++ ds ++ ')' :: post =
        c :: (pre ++ citPat ++ ds ++ ')' :: post) := by simp
    rw [hshape]
    cases hm : matchCit (c :: (pre ++ citPat ++ ds ++ ')' :: post)) with
    | some p =>
      simp only [findCitations, hm]
      simp
    | none =>
      simp only [findCitations, hm]
      simpa using ih

/-- Every nonempty scan exhibits an occurrence of the citation pattern. -/
theorem exists_occurrence_of_findCitations_ne_nil {l : List Char}
    (h : findCitations l ≠ []) :
    ∃ pre ds post, ds ≠ [] ∧ (∀ c ∈ ds, c.isDigit) ∧
      l = pre ++ citPat ++ ds ++ ')' :: post := by
  induction l with
  | nil => simp [findCitations] at h
  | cons c rest ih =>
    cases hm : matchCit (c :: rest) with
    | some p =>
      obtain ⟨tok, rem⟩ := p
      obtain ⟨ds, hne, hdig, hl, _⟩ := matchCit_some hm
      exact ⟨[], ds, rem, hne, hdig, by simpa using hl⟩
    | none =>
      have hrest : findCitations rest ≠ [] := by
        simpa [findCitations, hm] using h
      obtain ⟨pre, ds, post, hne, hdig, hl⟩ := ih hrest
      exact ⟨c :: pre, ds, post, hne, hdig, by simp [hl]⟩

/-- The scanner finds a citation exactly when one occurs in the input. -/
theorem findCitations_ne_nil_iff (l : List Char) :
    findCitations l ≠ [] ↔
      ∃ pre ds post, ds ≠ [] ∧ (∀ c ∈ ds, c.isDigit) ∧
        l = pre ++ citPat ++ ds ++ ')' :: post := by
  constructor
  · exact exists_occurrence_of_findCitations_ne_nil
  · rintro ⟨pre, ds, post, h1, h2, rfl⟩
    exact findCitations_ne_nil_of_occurrence pre ds post h1 h2

/-- C7: the emitted answer has `has_citations = true` and
`confidence = "high"` exactly when the raw response contains a substring
matching the literal pattern `(Source <integer>)` (a nonempty digit run
between `"(Source "` and `")"`), and `has_citations = false` with
`confidence = "low"` exactly otherwise; `citations_used` is the list of
matched tokens found by the scan. -/
theorem C7_citation_detection (raw : String) (ctx : ContextData) :
    ((process_llm_response raw ctx).has_citations = true ∧
      (process_llm_response raw ctx).confidence = "high" ↔
        ∃ pre ds post, ds ≠ [] ∧ (∀ c ∈ ds, c.isDigit) ∧
          raw.toList = pre ++ citPat ++ ds ++ ')' :: post) ∧
    ((process_llm_response raw ctx).has_citations = false ∧
      (process_llm_response raw ctx).confidence = "low" ↔
        ¬ ∃ pre ds post, ds ≠ [] ∧ (∀ c ∈ ds, c.isDigit) ∧
          raw.toList = pre ++ citPat ++ ds ++ ')' :: post) ∧
    (process_llm_response raw ctx).citations_used = findCitations raw.toList := by
  have key := findCitations_ne_nil_iff raw.toList
  have hhc : (process_llm_response raw ctx).has_citations =
      !(findCitations raw.toList).isEmpty := rfl
  have hcu : (process_llm_response raw ctx).citations_used =
      findCitations raw.toList := rfl
  have hconf : (process_llm_response raw ctx).confidence =
      (if !(findCitations raw.toList).isEmpty then "high" else "low") := rfl
  refine ⟨?_, ?_, hcu⟩
  · constructor
    · rintro ⟨hc, _⟩
      apply key.mp
      intro hnil
      rw [hhc, hnil] at hc
      simp at hc
    · intro hex
      have hne := key.mpr hex
      have hfalse : (findCitations raw.toList).isEmpty = false := by
        cases hkind : findCitations raw.toList with
        | nil => exact absurd hkind hne
        | cons a l => rfl
      rw [hhc, hconf, hfalse]
      simp
  · constructor
    · rintro ⟨hc, _⟩ hex
      have hne := key.mpr hex
      have hfalse : (findCitations raw.toList).isEmpty = false := by
        cases hkind : findCitations raw.toList with
        | nil => exact absurd hkind hne
        | cons a l => rfl
      rw [hhc, hfalse] at hc
      simp at hc
    · intro hnex
      have hnil : findCitations raw.toList = [] := by
        by_contra hne
        exact hnex (key.mp hne)
      rw [hhc, hconf, hnil]
      simp

/-- C7 witness: a concrete response containing `(Source 12)` is
detected with high confidence, via the completeness direction of the
detection theorem. -/
theorem C7_witness :
    (process_llm_response "See (Source 12). " ctx0).has_citations = true ∧
    (process_llm_response "See (Source 12). " ctx0).confidence = "high" :=
  (C7_citation_detection "See (Source 12). " ctx0).1.mpr
    ⟨"See ".toList, ['1', '2'], ". ".toList, by decide, by decide, by decide⟩
